import Mathlib

/-!
Verification of the OTPi input core: the rotary-encoder sampler
(`encoder.py`) and the OLED UI state machine (`oled_ui.py`).

Modelling conventions:
* Python floats are modelled as exact rationals (`ℚ`); `x % 1.0` becomes
  `Int.fract`, `int(x / p)` on integers becomes truncating division
  `Int.tdiv`, and Python's `%` on integers (floor/Euclidean for a positive
  modulus) becomes `Int.emod` (the `%` notation on `Int`).
* The sampler's background thread is modelled as a sequential loop over a
  finite trace of samples; each sample carries the three pin levels, the
  value of the monotone clock at that poll, and flags saying whether the
  quadrature read or the button read raised an exception on that poll.
  The nested release spin-wait of `_poll_loop` consumes samples of the
  same trace (only the button line is read there), modelled by the
  `waitRelease` mode flag.
* Display-only state (`_force_draw_next`, scroll position, draw
  timestamps, the wifi status line) never feeds back into the returned
  triple or into any state field the claims talk about, and is omitted.
-/

namespace OTPi

/-! ## Encoder (`encoder.py`) -/

/-- `Encoder.__init__`: quadrature transition table `self._tbl`. -/
def tbl : List Int := [0,-1,1,0, 1,0,0,-1, -1,0,0,1, 0,1,-1,0]

/-- `_poll_loop`: soft-disable threshold `max_errors`. -/
def MAX_ERRORS : Nat := 10

/-- One poll of the background sampler: the three pin levels, the value of
`time.perf_counter()` at this poll, and whether the quadrature read
(`_clk.read()`/`_dt.read()`) or the button read (`_sw.read()`) raised. -/
structure Sample where
  a : Nat
  b : Nat
  sw : Nat
  t : ℚ
  qErr : Bool
  bErr : Bool
deriving Repr, DecidableEq

/-- The sampler state of `Encoder`: the fields set in `__init__` plus the
loop-local `consecutive_errors`, the "loop has exited" flag and the
"inside the release spin-wait" mode flag. -/
structure EncState where
  qstate : Nat              -- self._state  (2-bit packed (clk,dt))
  accum : Int               -- self._accum  (transition accumulator)
  steps : Int               -- self._steps  (pending detents)
  press_latch : Bool        -- self._press_latch
  btn_last : Nat            -- self._btn_last
  btn_last_change : ℚ       -- self._btn_last_change
  errors : Nat              -- consecutive_errors (loop local)
  stopped : Bool            -- the poll loop has exited (break)
  waitRelease : Bool        -- inside the wait-for-release inner loop
  ok : Bool                 -- self._ok
deriving Repr, DecidableEq

/-- `Encoder.__init__` on initial pin levels `a b sw` at time `t`. -/
def encInit (a b sw : Nat) (t : ℚ) : EncState :=
  { qstate := (a <<< 1) ||| b
    accum := 0
    steps := 0
    press_latch := false
    btn_last := sw
    btn_last_change := t
    errors := 0
    stopped := false
    waitRelease := false
    ok := true }

/-- The level the button line shows when released, given the configured
polarity (`BTN_ACTIVE_LOW`). -/
def relLevel (alow : Bool) : Nat := if alow then 1 else 0

/-- The level the button line shows when pressed (active). -/
def actLevel (alow : Bool) : Nat := if alow then 0 else 1

/-- An exception was caught: `consecutive_errors += 1` and the loop breaks
once the count exceeds `max_errors`. -/
def bumpErr (st : EncState) : EncState :=
  { st with errors := st.errors + 1, stopped := decide (MAX_ERRORS < st.errors + 1) }

/-- The quadrature block of one `_poll_loop` iteration (the `try:` body),
on a successful read of levels `a`,`b`. -/
def quadUpdate (ppr : Int) (st : EncState) (a b : Nat) : EncState :=
  let s := (a <<< 1) ||| b
  let idx := ((st.qstate <<< 2) ||| s) &&& 15
  let delta := tbl.getD idx 0
  let st1 := { st with qstate := s }
  let st2 :=
    if delta ≠ 0 then
      let accum := st1.accum + delta
      let det := accum.tdiv ppr
      if det ≠ 0 then
        { st1 with accum := accum - det * ppr, steps := st1.steps + det }
      else
        { st1 with accum := accum }
    else st1
  { st2 with errors := 0 }

/-- The button block of one `_poll_loop` iteration, on a successful read of
level `sw` at time `t`; the second component records whether this
iteration executed `self._press_latch = True`. -/
def btnUpdate (D : ℚ) (alow : Bool) (st : EncState) (sw : Nat) (t : ℚ) :
    EncState × Bool :=
  if sw ≠ st.btn_last then
    ({ st with btn_last := sw, btn_last_change := t }, false)
  else if (if alow then sw = 0 else sw = 1) ∧ t - st.btn_last_change ≥ D then
    ({ st with press_latch := true, waitRelease := true }, true)
  else
    (st, false)

/-- One read of the button line inside the wait-for-release inner loop:
on a released level, record it and leave the spin-wait. -/
def spinCheck (alow : Bool) (st : EncState) (sw : Nat) (t : ℚ) : EncState :=
  if (if alow then sw = 1 else sw = 0) then
    { st with btn_last := sw, btn_last_change := t, waitRelease := false }
  else st

/-- One iteration of `Encoder._poll_loop` consuming one sample.  Returns
the new state and whether the iteration set the press latch. -/
def pollStep (ppr : Int) (D : ℚ) (alow : Bool) (st : EncState) (smp : Sample) :
    EncState × Bool :=
  if st.stopped then (st, false)
  else if st.waitRelease then
    -- inside the spin-wait only the button line is read; an exception there
    -- is caught by the button block's `except`, aborting the wait
    if smp.bErr then ({ bumpErr st with waitRelease := false }, false)
    else (spinCheck alow st smp.sw smp.t, false)
  else
    let st1 := if smp.qErr then bumpErr st else quadUpdate ppr st smp.a smp.b
    if st1.stopped then (st1, false)
    else if smp.bErr then (bumpErr st1, false)
    else btnUpdate D alow st1 smp.sw smp.t

/-- The sampler loop over a finite trace; also counts how many times the
press latch was set. -/
def pollLoop (ppr : Int) (D : ℚ) (alow : Bool) (st : EncState) :
    List Sample → EncState × Nat
  | [] => (st, 0)
  | smp :: rest =>
    let r := pollStep ppr D alow st smp
    let f := pollLoop ppr D alow r.1 rest
    (f.1, (if r.2 then 1 else 0) + f.2)

/-- `Encoder.steps()`: atomically read and zero the accumulated detents
(returns 0 untouched when init failed). -/
def stepsCall (st : EncState) : Int × EncState :=
  if st.ok then (st.steps, { st with steps := 0 }) else (0, st)

/-- `Encoder.pressed()`: read and clear the press latch. -/
def pressedCall (st : EncState) : Bool × EncState :=
  if st.ok then
    if st.press_latch then (true, { st with press_latch := false })
    else (false, st)
  else (false, st)

/-- The sum of transition-table deltas along a trace, starting from packed
quadrature state `q` (the quantity the spec's detent law is stated
about). -/
def deltaSum (q : Nat) : List Sample → Int
  | [] => 0
  | smp :: rest =>
    let s := (smp.a <<< 1) ||| smp.b
    tbl.getD (((q <<< 2) ||| s) &&& 15) 0 + deltaSum s rest

/-! ## OLED UI (`oled_ui.py`) -/

/-- The three destructive actions (`ResetAction.WIFI/QR/BOTH`); the no-op
`ResetAction.NONE` is modelled as `Option.none`, matching the Python
`confirm_for: Optional[str]` truthiness test. -/
inductive Act where
  | wifi
  | qr
  | both
deriving Repr, DecidableEq

/-- `SETTINGS_SAVE_DELAY` (seconds). -/
def SETTINGS_SAVE_DELAY : ℚ := 2

/-- `OLED_SLEEP_SECS`. -/
def OLED_SLEEP_SECS : ℚ := 10

/-- `screen_change_delay` in `handle` (200 ms). -/
def screenChangeDelay : ℚ := 1/5

/-- The UI-side press debounce in `handle` (100 ms). -/
def uiBtnDebounce : ℚ := 1/10

/-- Hue increment per detent on the Color screen (`step * 0.01`). -/
def hueStepSize : ℚ := 1/100

/-- The hue-changed threshold in `_check_auto_save` (`> 0.001`). -/
def hueSaveEps : ℚ := 1/1000

/-- The mutable state of `OledUI` (display-only fields omitted, see the
file header).  Languages are tracked by their index into
`lang.LANGUAGES`, whose codes are distinct, so comparing stored codes is
comparing indices. -/
structure UiState where
  screen : Nat                    -- self.screen
  selection : Int                 -- self.selection
  confirm_for : Option Act        -- self.confirm_for
  hue : ℚ                         -- self.hue
  user_pct : Int                  -- self.user_pct
  lang_idx : Int                  -- self._lang_idx
  btn_was_pressed : Bool          -- self._btn_was_pressed
  btn_debounce_time : ℚ           -- self._btn_debounce_time
  last_screen_change : ℚ          -- self._last_screen_change
  last_activity : ℚ               -- self._last_activity
  oled_sleeping : Bool            -- self._oled_sleeping
  last_setting_change : ℚ         -- self._last_setting_change
  settings_dirty : Bool           -- self._settings_dirty
  last_saved_hue : ℚ              -- self._last_saved_hue
  last_saved_brightness : Int     -- self._last_saved_brightness
  last_saved_lang : Int           -- self._last_saved_lang (as an index)
deriving Repr, DecidableEq

/-- `OledUI.__init__` at clock value `t0`: `hueIn` is the persisted hue if
present else `initial_hue`, `pctIn` likewise for brightness, `langIdx0`
the index of the persisted language (0 when not found). -/
def uiInit (hueIn : ℚ) (pctIn : Int) (langIdx0 : Int) (t0 : ℚ) : UiState :=
  { screen := 0
    selection := 0
    confirm_for := none
    hue := Int.fract hueIn
    user_pct := max 0 (min 100 pctIn)
    lang_idx := langIdx0
    btn_was_pressed := false
    btn_debounce_time := 0
    last_screen_change := t0
    last_activity := t0
    oled_sleeping := false
    last_setting_change := 0
    settings_dirty := false
    last_saved_hue := Int.fract hueIn
    last_saved_brightness := max 0 (min 100 pctIn)
    last_saved_lang := langIdx0 }

/-- The UI-side edge detection at top of `handle`: a raw press is an edge
only when the button was up last frame and 100 ms have passed since the
previous accepted edge. -/
def pressedEdge (st : UiState) (rawPress : Bool) (now : ℚ) : Bool :=
  rawPress && !st.btn_was_pressed && decide (now - st.btn_debounce_time > uiBtnDebounce)

/-- `OledUI._check_auto_save` (the `_save_settings` body reduced to its
state tracking; persistence itself is an external effect).  The second
component records whether a save fired this call. -/
def checkAutoSave (st : UiState) (now : ℚ) : UiState × Bool :=
  let hue_changed := |st.hue - st.last_saved_hue| > hueSaveEps
  let brightness_changed := st.user_pct ≠ st.last_saved_brightness
  let lang_changed := st.lang_idx ≠ st.last_saved_lang
  let st1 :=
    if (hue_changed ∨ brightness_changed ∨ lang_changed) ∧ ¬st.settings_dirty then
      { st with settings_dirty := true, last_setting_change := now }
    else st
  if st1.settings_dirty ∧ now - st1.last_setting_change ≥ SETTINGS_SAVE_DELAY then
    ({ st1 with
        last_saved_hue := st1.hue
        last_saved_brightness := st1.user_pct
        last_saved_lang := st1.lang_idx
        settings_dirty := false }, true)
  else (st1, false)

/-- `[ResetAction.WIFI, ResetAction.QR, ResetAction.BOTH][selection-1]`
for `selection ∈ {1,2,3}`. -/
def actFromSel (s : Int) : Act :=
  if s = 1 then .wifi else if s = 2 then .qr else .both

/-- The per-screen dispatch of `handle` (`N` = `len(lang.LANGUAGES)`).
Returns the updated state and the frame's `reset_action`. -/
def applyScreen (N : Int) (st : UiState) (step : Int) (pe : Bool) (now : ℚ) :
    UiState × Option Act :=
  let can := decide (now - st.last_screen_change > screenChangeDelay)
  if st.screen = 0 then            -- Basic/Info
    (if pe && can then { st with screen := 1, last_screen_change := now } else st, none)
  else if st.screen = 1 then       -- Color
    let st := if step ≠ 0 then
        { st with hue := Int.fract (st.hue + step * hueStepSize) } else st
    (if pe && can then { st with screen := 2, last_screen_change := now } else st, none)
  else if st.screen = 2 then       -- Brightness
    let st := if step ≠ 0 then
        { st with user_pct := max 0 (min 100 (st.user_pct + step)) } else st
    (if pe && can then { st with screen := 3, last_screen_change := now } else st, none)
  else if st.screen = 3 then       -- Language
    let st := if step ≠ 0 then
        { st with lang_idx := (st.lang_idx + step) % N } else st
    (if pe && can then { st with screen := 4, last_screen_change := now } else st, none)
  else if st.screen = 4 then       -- Reset menu
    let st := if step ≠ 0 then
        { st with selection := (st.selection + step) % 4 } else st
    if pe && can then
      if st.selection = 0 then
        ({ st with screen := 0, last_screen_change := now }, none)
      else
        ({ st with
            screen := 5
            confirm_for := some (actFromSel st.selection)
            last_screen_change := now }, none)
    else (st, none)
  else if st.screen = 5 then       -- Confirm
    if step ≠ 0 && can then
      ({ st with screen := 0, confirm_for := none, last_screen_change := now }, none)
    else if pe && can then
      ({ st with screen := 0, confirm_for := none, last_screen_change := now },
        st.confirm_for)
    else (st, none)
  else (st, none)

/-- The edge-detection bookkeeping at the top of `handle`: record the
accepted edge's time and the raw level for the next frame. -/
def btnFrameUpdate (st : UiState) (rawPress : Bool) (now : ℚ) : UiState :=
  let st1 := if pressedEdge st rawPress now then
      { st with btn_debounce_time := now } else st
  { st1 with btn_was_pressed := rawPress }

/-- The result of one `handle` call: the new state, the returned triple
`(hue, user_pct, reset_action)` and whether a settings save fired. -/
structure HandleResult where
  state : UiState
  outHue : ℚ
  outPct : Int
  reset : Option Act
  saved : Bool
deriving Repr, DecidableEq

/-- The tail of a non-sleeping `handle` frame: screen dispatch, (draw),
auto-save check, return. -/
def frameMain (N : Int) (st : UiState) (step : Int) (pe : Bool) (now : ℚ) :
    HandleResult :=
  let p := applyScreen N st step pe now
  let r := checkAutoSave p.1 now
  { state := r.1, outHue := r.1.hue, outPct := r.1.user_pct, reset := p.2, saved := r.2 }

/-- `OledUI.handle` for one frame, with the frame's burst-read result
`(step, rawPress)` and the clock value `now` (encoder-present path). -/
def handle (N : Int) (st₀ : UiState) (step : Int) (rawPress : Bool) (now : ℚ) :
    HandleResult :=
  let pe := pressedEdge st₀ rawPress now
  let st := btnFrameUpdate st₀ rawPress now
  let hasAct := decide (step ≠ 0) || pe
  if st.oled_sleeping then
    -- wake on activity, consume the input, run the auto-save check, return
    let st := if hasAct then
        { st with oled_sleeping := false, last_activity := now } else st
    let r := checkAutoSave st now
    { state := r.1, outHue := r.1.hue, outPct := r.1.user_pct, reset := none, saved := r.2 }
  else if hasAct then
    frameMain N { st with last_activity := now } step pe now
  else if now - st.last_activity ≥ OLED_SLEEP_SECS then
    let st := { st with oled_sleeping := true }
    let r := checkAutoSave st now
    { state := r.1, outHue := r.1.hue, outPct := r.1.user_pct, reset := none, saved := r.2 }
  else
    frameMain N st step pe now

/-- A sequence of `handle` frames, each given as `(step, rawPress, now)`. -/
def runFrames (N : Int) (st : UiState) : List (Int × Bool × ℚ) → UiState
  | [] => st
  | (s, p, t) :: rest => runFrames N (handle N st s p t).state rest

/-- The range invariant of C9: hue in `[0,1)` and brightness in
`[0,100]`. -/
def goodState (st : UiState) : Prop :=
  0 ≤ st.hue ∧ st.hue < 1 ∧ 0 ≤ st.user_pct ∧ st.user_pct ≤ 100

/-- The Confirm-screen invariant of C10: on screen 5 a pending action is
always set. -/
def confirmInv (st : UiState) : Prop :=
  st.screen = 5 → st.confirm_for.isSome = true

/-! ## Concrete states and traces used to witness the theorems -/

/-- A UI state sitting on the Confirm screen with a pending Wi-Fi reset,
long past the last screen change. -/
def stConfirm : UiState := { uiInit 0 50 0 0 with screen := 5, confirm_for := some Act.wifi }

/-- A UI state that is asleep. -/
def stSleeping : UiState := { uiInit 0 50 0 0 with oled_sleeping := true }

/-- Pin trace: four forward quadrature transitions (one full detent at
PPR = 4) followed by one backward transition, button released
throughout.  From rest state `(1,1)` the visited states are
`3 → 1 → 0 → 2 → 3 → 2`. -/
def quadTrace : List Sample :=
  [⟨0, 1, 1, 0, false, false⟩, ⟨0, 0, 1, 1, false, false⟩, ⟨1, 0, 1, 2, false, false⟩,
    ⟨1, 1, 1, 3, false, false⟩, ⟨1, 0, 1, 4, false, false⟩]

/-- A press held (active-low) across five polls spanning 8 ms, longer
than the 5 ms debounce window. -/
def holdTrace : List Sample :=
  [⟨1, 1, 0, 0, false, false⟩, ⟨1, 1, 0, 1/1000, false, false⟩,
    ⟨1, 1, 0, 2/1000, false, false⟩, ⟨1, 1, 0, 6/1000, false, false⟩,
    ⟨1, 1, 0, 8/1000, false, false⟩]

/-- A press held only 2 ms, shorter than the 5 ms debounce window. -/
def shortTrace : List Sample :=
  [⟨1, 1, 0, 0, false, false⟩, ⟨1, 1, 0, 1/1000, false, false⟩,
    ⟨1, 1, 0, 2/1000, false, false⟩]

/-- One full detent of rotation followed by eleven consecutive
quadrature read errors: enough to soft-disable the sampler with a
detent still pending. -/
def disableTrace : List Sample :=
  quadTrace ++ (List.range 11).map (fun i => ⟨1, 1, 1, 5 + i, true, false⟩)

/-- A sampler state whose poll loop has soft-disabled with one detent
and a press still pending. -/
def stStopped : EncState :=
  { encInit 1 1 1 0 with stopped := true, steps := 1, press_latch := true, errors := 11 }

/-! ## Helper lemmas -/

theorem checkAutoSave_screen (st : UiState) (now : ℚ) :
    (checkAutoSave st now).1.screen = st.screen := by
  unfold checkAutoSave
  dsimp only
  split <;> split <;> rfl

theorem checkAutoSave_selection (st : UiState) (now : ℚ) :
    (checkAutoSave st now).1.selection = st.selection := by
  unfold checkAutoSave
  dsimp only
  split <;> split <;> rfl

theorem checkAutoSave_confirm_for (st : UiState) (now : ℚ) :
    (checkAutoSave st now).1.confirm_for = st.confirm_for := by
  unfold checkAutoSave
  dsimp only
  split <;> split <;> rfl

theorem checkAutoSave_hue (st : UiState) (now : ℚ) :
    (checkAutoSave st now).1.hue = st.hue := by
  unfold checkAutoSave
  dsimp only
  split <;> split <;> rfl

theorem checkAutoSave_user_pct (st : UiState) (now : ℚ) :
    (checkAutoSave st now).1.user_pct = st.user_pct := by
  unfold checkAutoSave
  dsimp only
  split <;> split <;> rfl

theorem checkAutoSave_lang_idx (st : UiState) (now : ℚ) :
    (checkAutoSave st now).1.lang_idx = st.lang_idx := by
  unfold checkAutoSave
  dsimp only
  split <;> split <;> rfl

theorem checkAutoSave_oled_sleeping (st : UiState) (now : ℚ) :
    (checkAutoSave st now).1.oled_sleeping = st.oled_sleeping := by
  unfold checkAutoSave
  dsimp only
  split <;> split <;> rfl

theorem btnFrameUpdate_screen (st : UiState) (rawPress : Bool) (now : ℚ) :
    (btnFrameUpdate st rawPress now).screen = st.screen := by
  unfold btnFrameUpdate
  dsimp only
  split <;> rfl

theorem btnFrameUpdate_selection (st : UiState) (rawPress : Bool) (now : ℚ) :
    (btnFrameUpdate st rawPress now).selection = st.selection := by
  unfold btnFrameUpdate
  dsimp only
  split <;> rfl

theorem btnFrameUpdate_confirm_for (st : UiState) (rawPress : Bool) (now : ℚ) :
    (btnFrameUpdate st rawPress now).confirm_for = st.confirm_for := by
  unfold btnFrameUpdate
  dsimp only
  split <;> rfl

theorem btnFrameUpdate_hue (st : UiState) (rawPress : Bool) (now : ℚ) :
    (btnFrameUpdate st rawPress now).hue = st.hue := by
  unfold btnFrameUpdate
  dsimp only
  split <;> rfl

theorem btnFrameUpdate_user_pct (st : UiState) (rawPress : Bool) (now : ℚ) :
    (btnFrameUpdate st rawPress now).user_pct = st.user_pct := by
  unfold btnFrameUpdate
  dsimp only
  split <;> rfl

theorem btnFrameUpdate_lang_idx (st : UiState) (rawPress : Bool) (now : ℚ) :
    (btnFrameUpdate st rawPress now).lang_idx = st.lang_idx := by
  unfold btnFrameUpdate
  dsimp only
  split <;> rfl

theorem btnFrameUpdate_oled_sleeping (st : UiState) (rawPress : Bool) (now : ℚ) :
    (btnFrameUpdate st rawPress now).oled_sleeping = st.oled_sleeping := by
  unfold btnFrameUpdate
  dsimp only
  split <;> rfl

theorem btnFrameUpdate_last_screen_change (st : UiState) (rawPress : Bool) (now : ℚ) :
    (btnFrameUpdate st rawPress now).last_screen_change = st.last_screen_change := by
  unfold btnFrameUpdate
  dsimp only
  split <;> rfl

/-- On the Confirm screen with the screen-change gate open, any nonzero
step cancels: back to Info, `confirm_for` cleared, no action. -/
theorem applyScreen_five_step (N : Int) (st : UiState) (step : Int) (pe : Bool) (now : ℚ)
    (h5 : st.screen = 5) (hstep : step ≠ 0)
    (hcan : now - st.last_screen_change > screenChangeDelay) :
    applyScreen N st step pe now =
      ({ st with screen := 0, confirm_for := none, last_screen_change := now }, none) := by
  unfold applyScreen
  simp [h5, hstep, hcan]

/-- On the Confirm screen with the gate open and no step, a press edge
confirms: back to Info, `confirm_for` cleared and handed back as the
frame's reset action. -/
theorem applyScreen_five_press (N : Int) (st : UiState) (step : Int) (pe : Bool) (now : ℚ)
    (h5 : st.screen = 5) (hstep : step = 0) (hpe : pe = true)
    (hcan : now - st.last_screen_change > screenChangeDelay) :
    applyScreen N st step pe now =
      ({ st with screen := 0, confirm_for := none, last_screen_change := now },
        st.confirm_for) := by
  unfold applyScreen
  simp [h5, hstep, hpe, hcan]

/-- Only the Confirm branch of the screen dispatch can produce a reset
action, and then it hands back `confirm_for` on a press edge. -/
theorem applyScreen_reset (N : Int) (st : UiState) (step : Int) (pe : Bool) (now : ℚ)
    (h : (applyScreen N st step pe now).2 ≠ none) :
    st.screen = 5 ∧ pe = true ∧
      (applyScreen N st step pe now).2 = st.confirm_for := by
  rcases he : applyScreen N st step pe now with ⟨stf, r⟩
  rw [he] at h
  dsimp only at h ⊢
  unfold applyScreen at he
  dsimp only at he
  split at he
  · injection he with he1 he2
    exact absurd he2.symm h
  · split at he
    · injection he with he1 he2
      exact absurd he2.symm h
    · split at he
      · injection he with he1 he2
        exact absurd he2.symm h
      · split at he
        · injection he with he1 he2
          exact absurd he2.symm h
        · split at he
          · split at he
            · split at he <;> split at he <;>
                (injection he with he1 he2; exact absurd he2.symm h)
            · injection he with he1 he2
              exact absurd he2.symm h
          · split at he
            · rename_i h5
              split at he
              · injection he with he1 he2
                exact absurd he2.symm h
              · split at he
                · rename_i hpe
                  injection he with he1 he2
                  exact ⟨h5, (Bool.and_eq_true _ _ |>.mp hpe).1, he2.symm⟩
                · injection he with he1 he2
                  exact absurd he2.symm h
            · injection he with he1 he2
              exact absurd he2.symm h

/-- An awake frame with activity runs the screen dispatch on the
button-updated state with `last_activity` refreshed. -/
theorem handle_awake_act (N : Int) (st : UiState) (step : Int) (rawPress : Bool) (now : ℚ)
    (hw : st.oled_sleeping = false)
    (hact : (decide (step ≠ 0) || pressedEdge st rawPress now) = true) :
    handle N st step rawPress now =
      frameMain N { btnFrameUpdate st rawPress now with last_activity := now } step
        (pressedEdge st rawPress now) now := by
  unfold handle
  dsimp only
  rw [btnFrameUpdate_oled_sleeping, hw, hact]
  simp

/-- `_check_auto_save` while already dirty: the timestamp is never
touched; it only decides whether the delay has elapsed. -/
theorem checkAutoSave_dirty (st : UiState) (now : ℚ) (hd : st.settings_dirty = true) :
    checkAutoSave st now =
      (if now - st.last_setting_change ≥ SETTINGS_SAVE_DELAY then
        ({ st with
            last_saved_hue := st.hue
            last_saved_brightness := st.user_pct
            last_saved_lang := st.lang_idx
            settings_dirty := false }, true)
      else (st, false)) := by
  unfold checkAutoSave
  simp [hd]

/-- `_check_auto_save` on the first change of a run: mark dirty, stamp
`now`, and do not save yet. -/
theorem checkAutoSave_firstChange (st : UiState) (now : ℚ)
    (hc : st.settings_dirty = false)
    (hch : |st.hue - st.last_saved_hue| > hueSaveEps ∨
      st.user_pct ≠ st.last_saved_brightness ∨ st.lang_idx ≠ st.last_saved_lang) :
    checkAutoSave st now =
      ({ st with settings_dirty := true, last_setting_change := now }, false) := by
  have hA : (|st.hue - st.last_saved_hue| > hueSaveEps ∨
      st.user_pct ≠ st.last_saved_brightness ∨ st.lang_idx ≠ st.last_saved_lang) ∧
      ¬st.settings_dirty = true := ⟨hch, by simp [hc]⟩
  unfold checkAutoSave
  dsimp only
  rw [if_pos hA]
  dsimp only
  rw [if_neg ?hns]
  case hns =>
    rintro ⟨-, habs⟩
    rw [sub_self] at habs
    exact absurd habs (by norm_num [SETTINGS_SAVE_DELAY])

set_option maxHeartbeats 2000000 in
theorem applyScreen_good (N : Int) (st : UiState) (step : Int) (pe : Bool) (now : ℚ)
    (h : goodState st) : goodState (applyScreen N st step pe now).1 := by
  obtain ⟨hh0, hh1, hp0, hp1⟩ := h
  rcases he : applyScreen N st step pe now with ⟨stf, r⟩
  dsimp only
  unfold applyScreen at he
  dsimp only at he
  repeat' split at he
  all_goals
    injection he with he1 he2
  all_goals
    subst he1
  all_goals
    refine ⟨?_, ?_, ?_, ?_⟩ <;>
      first
        | exact hh0
        | exact hh1
        | exact hp0
        | exact hp1
        | exact Int.fract_nonneg _
        | exact Int.fract_lt_one _
        | exact le_max_left _ _
        | exact max_le (by norm_num) (min_le_left _ _)

theorem checkAutoSave_good (st : UiState) (now : ℚ) (h : goodState st) :
    goodState (checkAutoSave st now).1 := by
  obtain ⟨hh0, hh1, hp0, hp1⟩ := h
  refine ⟨?_, ?_, ?_, ?_⟩
  · rw [checkAutoSave_hue]; exact hh0
  · rw [checkAutoSave_hue]; exact hh1
  · rw [checkAutoSave_user_pct]; exact hp0
  · rw [checkAutoSave_user_pct]; exact hp1

theorem btnFrameUpdate_good (st : UiState) (rawPress : Bool) (now : ℚ)
    (h : goodState st) : goodState (btnFrameUpdate st rawPress now) := by
  obtain ⟨hh0, hh1, hp0, hp1⟩ := h
  refine ⟨?_, ?_, ?_, ?_⟩
  · rw [btnFrameUpdate_hue]; exact hh0
  · rw [btnFrameUpdate_hue]; exact hh1
  · rw [btnFrameUpdate_user_pct]; exact hp0
  · rw [btnFrameUpdate_user_pct]; exact hp1

theorem handle_good (N : Int) (st : UiState) (step : Int) (rawPress : Bool) (now : ℚ)
    (h : goodState st) : goodState (handle N st step rawPress now).state := by
  have hbg := btnFrameUpdate_good st rawPress now h
  unfold handle
  dsimp only
  split
  · split
    · exact checkAutoSave_good _ now ⟨hbg.1, hbg.2.1, hbg.2.2.1, hbg.2.2.2⟩
    · exact checkAutoSave_good _ now hbg
  · split
    · exact checkAutoSave_good _ now
        (applyScreen_good N _ step _ now ⟨hbg.1, hbg.2.1, hbg.2.2.1, hbg.2.2.2⟩)
    · split
      · exact checkAutoSave_good _ now ⟨hbg.1, hbg.2.1, hbg.2.2.1, hbg.2.2.2⟩
      · exact checkAutoSave_good _ now (applyScreen_good N _ step _ now hbg)

theorem runFrames_good (N : Int) (frames : List (Int × Bool × ℚ)) (st : UiState)
    (h : goodState st) : goodState (runFrames N st frames) := by
  induction frames generalizing st with
  | nil => exact h
  | cons f rest ih =>
    obtain ⟨s, p, t⟩ := f
    exact ih _ (handle_good N st s p t h)

theorem applyScreen_confirmInv (N : Int) (st : UiState) (step : Int) (pe : Bool) (now : ℚ)
    (h : confirmInv st) : confirmInv (applyScreen N st step pe now).1 := by
  rcases he : applyScreen N st step pe now with ⟨stf, r⟩
  dsimp only
  unfold applyScreen at he
  dsimp only at he
  repeat' split at he
  all_goals
    injection he with he1 he2
  all_goals
    subst he1
  all_goals
    intro habs
  all_goals
    first
      | exact h habs
      | rfl
      | simp at habs

theorem checkAutoSave_confirmInv (st : UiState) (now : ℚ) (h : confirmInv st) :
    confirmInv (checkAutoSave st now).1 := by
  intro habs
  rw [checkAutoSave_confirm_for]
  rw [checkAutoSave_screen] at habs
  exact h habs

theorem btnFrameUpdate_confirmInv (st : UiState) (rawPress : Bool) (now : ℚ)
    (h : confirmInv st) : confirmInv (btnFrameUpdate st rawPress now) := by
  intro habs
  rw [btnFrameUpdate_confirm_for]
  rw [btnFrameUpdate_screen] at habs
  exact h habs

theorem handle_confirmInv (N : Int) (st : UiState) (step : Int) (rawPress : Bool) (now : ℚ)
    (h : confirmInv st) : confirmInv (handle N st step rawPress now).state := by
  have hbc := btnFrameUpdate_confirmInv st rawPress now h
  unfold handle
  dsimp only
  split
  · split
    · exact checkAutoSave_confirmInv _ now (fun habs => hbc habs)
    · exact checkAutoSave_confirmInv _ now hbc
  · split
    · exact checkAutoSave_confirmInv _ now
        (applyScreen_confirmInv N _ step _ now (fun habs => hbc habs))
    · split
      · exact checkAutoSave_confirmInv _ now (fun habs => hbc habs)
      · exact checkAutoSave_confirmInv _ now (applyScreen_confirmInv N _ step _ now hbc)

theorem runFrames_confirmInv (N : Int) (frames : List (Int × Bool × ℚ)) (st : UiState)
    (h : confirmInv st) : confirmInv (runFrames N st frames) := by
  induction frames generalizing st with
  | nil => exact h
  | cons f rest ih =>
    obtain ⟨s, p, t⟩ := f
    exact ih _ (handle_confirmInv N st s p t h)

/-- Every transition-table entry is a delta in `{-1, 0, +1}`. -/
theorem tbl_getD_mem (i : Nat) :
    tbl.getD i 0 = -1 ∨ tbl.getD i 0 = 0 ∨ tbl.getD i 0 = 1 := by
  by_cases h : i < 16
  · interval_cases i <;> decide
  · rw [List.getD_eq_default]
    · exact Or.inr (Or.inl rfl)
    · simp only [tbl, List.length_cons, List.length_nil]
      omega

/-- Truncating division of a proper remainder is zero. -/
theorem tdiv_zero_of_abs_lt {x p : Int} (_hp : 0 < p) (h : |x| < p) : x.tdiv p = 0 := by
  rcases le_or_lt 0 x with hx | hx
  · exact Int.tdiv_eq_zero_of_lt hx (by rwa [abs_of_nonneg hx] at h)
  · have h1 : (-x).tdiv p = 0 :=
      Int.tdiv_eq_zero_of_lt (by omega) (by rwa [abs_of_neg hx] at h)
    have h2 : -(x.tdiv p) = 0 := by rw [← Int.neg_tdiv]; exact h1
    omega

theorem quadUpdate_stopped (ppr : Int) (st : EncState) (a b : Nat) :
    (quadUpdate ppr st a b).stopped = st.stopped := by
  unfold quadUpdate
  dsimp only
  repeat' split
  all_goals rfl

theorem quadUpdate_waitRelease (ppr : Int) (st : EncState) (a b : Nat) :
    (quadUpdate ppr st a b).waitRelease = st.waitRelease := by
  unfold quadUpdate
  dsimp only
  repeat' split
  all_goals rfl

theorem quadUpdate_btn_last (ppr : Int) (st : EncState) (a b : Nat) :
    (quadUpdate ppr st a b).btn_last = st.btn_last := by
  unfold quadUpdate
  dsimp only
  repeat' split
  all_goals rfl

theorem quadUpdate_btn_last_change (ppr : Int) (st : EncState) (a b : Nat) :
    (quadUpdate ppr st a b).btn_last_change = st.btn_last_change := by
  unfold quadUpdate
  dsimp only
  repeat' split
  all_goals rfl

theorem quadUpdate_press_latch (ppr : Int) (st : EncState) (a b : Nat) :
    (quadUpdate ppr st a b).press_latch = st.press_latch := by
  unfold quadUpdate
  dsimp only
  repeat' split
  all_goals rfl

theorem quadUpdate_qstate (ppr : Int) (st : EncState) (a b : Nat) :
    (quadUpdate ppr st a b).qstate = (a <<< 1) ||| b := by
  unfold quadUpdate
  dsimp only
  repeat' split
  all_goals rfl

/-- One quadrature poll preserves the detent ledger
`steps * PPR + accum` shifted by the table delta, and keeps the
accumulator a proper remainder. -/
theorem quadUpdate_steps_accum (ppr : Int) (hp : 0 < ppr) (st : EncState) (a b : Nat)
    (hacc : |st.accum| < ppr) :
    (quadUpdate ppr st a b).steps * ppr + (quadUpdate ppr st a b).accum =
      st.steps * ppr + st.accum +
        tbl.getD (((st.qstate <<< 2) ||| ((a <<< 1) ||| b)) &&& 15) 0 ∧
      |(quadUpdate ppr st a b).accum| < ppr := by
  have hd3 := tbl_getD_mem (((st.qstate <<< 2) ||| ((a <<< 1) ||| b)) &&& 15)
  unfold quadUpdate
  dsimp only
  set d := tbl.getD (((st.qstate <<< 2) ||| ((a <<< 1) ||| b)) &&& 15) 0 with hdd
  have habs : |st.accum + d| ≤ ppr := by
    rw [abs_le]
    rw [abs_lt] at hacc
    rcases hd3 with hd | hd | hd <;> omega
  split_ifs with hne hdet
  · refine ⟨by dsimp only; ring, ?_⟩
    dsimp only
    rcases lt_or_eq_of_le habs with hlt | heq
    · exact absurd (tdiv_zero_of_abs_lt hp hlt) hdet
    · rcases (abs_eq (le_of_lt hp)).mp heq with hA | hA
      · rw [hA, Int.tdiv_self (by omega), abs_lt]
        constructor <;> omega
      · rw [hA, show (-ppr).tdiv ppr = -1 from by
            rw [Int.neg_tdiv, Int.tdiv_self (by omega)], abs_lt]
        constructor <;> omega
  · refine ⟨by dsimp only; ring, ?_⟩
    dsimp only
    rcases lt_or_eq_of_le habs with hlt | heq
    · exact hlt
    · exfalso
      rw [not_not] at hdet
      rcases (abs_eq (le_of_lt hp)).mp heq with hA | hA
      · rw [hA, Int.tdiv_self (by omega)] at hdet
        exact one_ne_zero hdet
      · rw [hA, Int.neg_tdiv, Int.tdiv_self (by omega)] at hdet
        omega
  · have h0 : d = 0 := not_not.mp hne
    rw [h0]
    exact ⟨by dsimp only; ring, hacc⟩

/-- A poll of the released level on a stable button changes nothing. -/
theorem btnUpdate_quiet (D : ℚ) (alow : Bool) (st : EncState) (t : ℚ)
    (hb : st.btn_last = relLevel alow) :
    btnUpdate D alow st (relLevel alow) t = (st, false) := by
  cases alow <;> simp [btnUpdate, relLevel] at hb ⊢ <;> simp [hb]

/-- With no errors, no spin-wait and a quiet released button, one poll
iteration is exactly the quadrature update. -/
theorem pollStep_quiet (ppr : Int) (D : ℚ) (alow : Bool) (st : EncState) (smp : Sample)
    (hstop : st.stopped = false) (hwait : st.waitRelease = false)
    (hbtn : st.btn_last = relLevel alow)
    (hsw : smp.sw = relLevel alow) (hq : smp.qErr = false) (hb : smp.bErr = false) :
    pollStep ppr D alow st smp = (quadUpdate ppr st smp.a smp.b, false) := by
  unfold pollStep
  simp only [hstop, hwait, hq, hb, quadUpdate_stopped, Bool.false_eq_true, if_false,
    ite_false]
  rw [hsw]
  exact btnUpdate_quiet D alow _ smp.t (by rw [quadUpdate_btn_last]; exact hbtn)

/-- Over an error-free trace with a quiet button, the sampler maintains
`steps * PPR + accum = initial ledger + sum of table deltas`, with the
accumulator always a proper remainder. -/
theorem pollLoop_quad_inv (ppr : Int) (hp : 0 < ppr) (D : ℚ) (alow : Bool)
    (trace : List Sample) (st : EncState)
    (hstop : st.stopped = false) (hwait : st.waitRelease = false)
    (hbtn : st.btn_last = relLevel alow) (hacc : |st.accum| < ppr)
    (htr : ∀ smp ∈ trace, smp.sw = relLevel alow ∧ smp.qErr = false ∧ smp.bErr = false) :
    (pollLoop ppr D alow st trace).1.steps * ppr + (pollLoop ppr D alow st trace).1.accum =
      st.steps * ppr + st.accum + deltaSum st.qstate trace ∧
      |(pollLoop ppr D alow st trace).1.accum| < ppr := by
  induction trace generalizing st with
  | nil => simp [pollLoop, deltaSum, hacc]
  | cons smp rest ih =>
    obtain ⟨hsw, hq, hb⟩ := htr smp (List.mem_cons_self _ _)
    have hstep := pollStep_quiet ppr D alow st smp hstop hwait hbtn hsw hq hb
    have hqinv := quadUpdate_steps_accum ppr hp st smp.a smp.b hacc
    have ihh := ih (quadUpdate ppr st smp.a smp.b)
      (by rw [quadUpdate_stopped]; exact hstop)
      (by rw [quadUpdate_waitRelease]; exact hwait)
      (by rw [quadUpdate_btn_last]; exact hbtn)
      hqinv.2
      (fun s hs => htr s (List.mem_cons_of_mem _ hs))
    unfold pollLoop
    dsimp only
    rw [hstep]
    dsimp only
    refine ⟨?_, ihh.2⟩
    rw [ihh.1, hqinv.1, quadUpdate_qstate]
    simp only [deltaSum]
    ring

theorem quadUpdate_ok (ppr : Int) (st : EncState) (a b : Nat) :
    (quadUpdate ppr st a b).ok = st.ok := by
  unfold quadUpdate
  dsimp only
  repeat' split
  all_goals rfl

theorem spinCheck_ok (alow : Bool) (st : EncState) (sw : Nat) (t : ℚ) :
    (spinCheck alow st sw t).ok = st.ok := by
  unfold spinCheck
  split <;> split <;> rfl

theorem btnUpdate_ok (D : ℚ) (alow : Bool) (st : EncState) (sw : Nat) (t : ℚ) :
    (btnUpdate D alow st sw t).1.ok = st.ok := by
  unfold btnUpdate
  repeat' split
  all_goals rfl

/-- No poll iteration touches `self._ok`. -/
theorem pollStep_ok (ppr : Int) (D : ℚ) (alow : Bool) (st : EncState) (smp : Sample) :
    (pollStep ppr D alow st smp).1.ok = st.ok := by
  unfold pollStep
  rcases hs : st.stopped with _ | _
  · rcases hw : st.waitRelease with _ | _
    · rcases hq : smp.qErr with _ | _
      · simp only [hs, hw, hq, Bool.false_eq_true, if_false]
        split
        · exact quadUpdate_ok ppr st smp.a smp.b
        · split
          · exact quadUpdate_ok ppr st smp.a smp.b
          · exact (btnUpdate_ok D alow _ smp.sw smp.t).trans (quadUpdate_ok ppr st smp.a smp.b)
      · simp only [hs, hw, hq, Bool.false_eq_true, if_false, if_true]
        split
        · rfl
        · split
          · rfl
          · exact (btnUpdate_ok D alow _ smp.sw smp.t).trans rfl
    · rcases hb : smp.bErr with _ | _
      · simp only [hs, hw, hb, Bool.false_eq_true, if_false, if_true]
        exact spinCheck_ok alow st smp.sw smp.t
      · simp only [hs, hw, hb, Bool.false_eq_true, if_false, if_true]
        rfl
  · simp [hs]

theorem pollLoop_ok (ppr : Int) (D : ℚ) (alow : Bool) (trace : List Sample)
    (st : EncState) : (pollLoop ppr D alow st trace).1.ok = st.ok := by
  induction trace generalizing st with
  | nil => rfl
  | cons smp rest ih =>
    unfold pollLoop
    dsimp only
    rw [ih, pollStep_ok]

theorem act_ne_rel (alow : Bool) : actLevel alow ≠ relLevel alow := by
  cases alow <;> simp [actLevel, relLevel]

/-- Inside the release spin-wait, polls that still read the active level
change nothing and never latch. -/
theorem pollStep_waitActive (ppr : Int) (D : ℚ) (alow : Bool) (st : EncState) (smp : Sample)
    (hstop : st.stopped = false) (hwait : st.waitRelease = true)
    (hsw : smp.sw = actLevel alow) (hb : smp.bErr = false) :
    pollStep ppr D alow st smp = (st, false) := by
  unfold pollStep
  simp only [hstop, hwait, hb, Bool.false_eq_true, if_false, if_true]
  unfold spinCheck
  rw [hsw]
  cases alow <;> simp [actLevel]

theorem pollLoop_waitActive (ppr : Int) (D : ℚ) (alow : Bool) (ts : List Sample)
    (st : EncState) (hstop : st.stopped = false) (hwait : st.waitRelease = true)
    (hts : ∀ s ∈ ts, s.sw = actLevel alow ∧ s.bErr = false) :
    pollLoop ppr D alow st ts = (st, 0) := by
  induction ts with
  | nil => rfl
  | cons s rest ih =>
    obtain ⟨hsw, hb⟩ := hts s (List.mem_cons_self _ _)
    unfold pollLoop
    dsimp only
    rw [pollStep_waitActive ppr D alow st s hstop hwait hsw hb]
    dsimp only
    rw [ih (fun x hx => hts x (List.mem_cons_of_mem _ hx))]
    simp

/-- A poll of the active level on a button already seen active: latch
exactly when the debounce window has elapsed since the level change,
then enter the release spin-wait. -/
theorem pollStep_active (ppr : Int) (D : ℚ) (alow : Bool) (st : EncState) (smp : Sample)
    (hstop : st.stopped = false) (hwait : st.waitRelease = false)
    (hbtn : st.btn_last = actLevel alow)
    (hsw : smp.sw = actLevel alow) (hq : smp.qErr = false) (hb : smp.bErr = false) :
    pollStep ppr D alow st smp =
      (if smp.t - st.btn_last_change ≥ D then
        ({ quadUpdate ppr st smp.a smp.b with press_latch := true, waitRelease := true },
          true)
      else (quadUpdate ppr st smp.a smp.b, false)) := by
  unfold pollStep
  simp only [hstop, hwait, hq, hb, quadUpdate_stopped, Bool.false_eq_true, if_false,
    ite_false]
  unfold btnUpdate
  rw [if_neg (by
    rw [quadUpdate_btn_last, hbtn, hsw]
    exact not_not_intro rfl)]
  rw [quadUpdate_btn_last_change, hsw]
  cases alow <;> simp [actLevel, quadUpdate_stopped, hstop]

/-- The first active poll after a release is a level edge: record it,
restart the debounce clock, no latch. -/
theorem pollStep_edge (ppr : Int) (D : ℚ) (alow : Bool) (st : EncState) (smp : Sample)
    (hstop : st.stopped = false) (hwait : st.waitRelease = false)
    (hbtn : st.btn_last = relLevel alow)
    (hsw : smp.sw = actLevel alow) (hq : smp.qErr = false) (hb : smp.bErr = false) :
    pollStep ppr D alow st smp =
      ({ quadUpdate ppr st smp.a smp.b with btn_last := smp.sw, btn_last_change := smp.t },
        false) := by
  unfold pollStep
  simp only [hstop, hwait, hq, hb, quadUpdate_stopped, Bool.false_eq_true, if_false,
    ite_false]
  unfold btnUpdate
  rw [if_pos (by
    rw [quadUpdate_btn_last, hbtn, hsw]
    exact act_ne_rel alow)]
  simp [quadUpdate_stopped, hstop]

/-- Polling a stably held active level: the latch fires on exactly the
first poll that observes the debounce window elapsed since the level
change, and on no other poll of the hold. -/
theorem pollLoop_hold (ppr : Int) (D : ℚ) (alow : Bool) (ts : List Sample)
    (st : EncState)
    (hstop : st.stopped = false) (hwait : st.waitRelease = false)
    (hbtn : st.btn_last = actLevel alow)
    (hts : ∀ s ∈ ts, s.sw = actLevel alow ∧ s.qErr = false ∧ s.bErr = false) :
    (pollLoop ppr D alow st ts).2 =
      if ∃ s ∈ ts, s.t - st.btn_last_change ≥ D then 1 else 0 := by
  induction ts generalizing st with
  | nil => simp [pollLoop]
  | cons s rest ih =>
    obtain ⟨hsw, hq, hb⟩ := hts s (List.mem_cons_self _ _)
    have hstep := pollStep_active ppr D alow st s hstop hwait hbtn hsw hq hb
    unfold pollLoop
    dsimp only
    rw [hstep]
    by_cases hd : s.t - st.btn_last_change ≥ D
    · rw [if_pos hd]
      dsimp only
      set stW : EncState :=
        { quadUpdate ppr st s.a s.b with
            press_latch := true
            waitRelease := true } with hstW
      rw [pollLoop_waitActive ppr D alow rest stW
        ((quadUpdate_stopped ppr st s.a s.b).trans hstop)
        rfl
        (fun x hx => ⟨(hts x (List.mem_cons_of_mem _ hx)).1,
          (hts x (List.mem_cons_of_mem _ hx)).2.2⟩)]
      rw [if_pos (show ∃ x ∈ s :: rest, x.t - st.btn_last_change ≥ D from
        ⟨s, List.mem_cons_self _ _, hd⟩)]
      simp
    · rw [if_neg hd]
      dsimp only
      rw [ih (quadUpdate ppr st s.a s.b)
        (by rw [quadUpdate_stopped]; exact hstop)
        (by rw [quadUpdate_waitRelease]; exact hwait)
        (by rw [quadUpdate_btn_last]; exact hbtn)
        (fun x hx => hts x (List.mem_cons_of_mem _ hx))]
      rw [quadUpdate_btn_last_change]
      simp only [Bool.false_eq_true, if_false, zero_add]
      by_cases hrest : ∃ x ∈ rest, x.t - st.btn_last_change ≥ D
      · rw [if_pos hrest,
          if_pos (show ∃ x ∈ s :: rest, x.t - st.btn_last_change ≥ D from
            hrest.elim fun x hx => ⟨x, List.mem_cons_of_mem _ hx.1, hx.2⟩)]
      · rw [if_neg hrest,
          if_neg (show ¬∃ x ∈ s :: rest, x.t - st.btn_last_change ≥ D from by
            rintro ⟨x, hx, hxd⟩
            rcases List.mem_cons.mp hx with rfl | hx2
            · exact hd hxd
            · exact hrest ⟨x, hx2, hxd⟩)]

/-- Once the poll loop has exited, nothing ever changes again. -/
theorem pollStep_stopped (ppr : Int) (D : ℚ) (alow : Bool) (st : EncState) (smp : Sample)
    (h : st.stopped = true) : pollStep ppr D alow st smp = (st, false) := by
  unfold pollStep
  rw [if_pos h]

theorem pollLoop_stopped (ppr : Int) (D : ℚ) (alow : Bool) (ts : List Sample)
    (st : EncState) (h : st.stopped = true) : pollLoop ppr D alow st ts = (st, 0) := by
  induction ts with
  | nil => rfl
  | cons s rest ih =>
    unfold pollLoop
    dsimp only
    rw [pollStep_stopped ppr D alow st s h]
    dsimp only
    rw [ih]
    simp

/-! ## Claims -/

/-- C1: across all per-frame `handle` calls, the `reset_action` component
of the returned triple is the no-op value except on a frame where the
current screen is Confirm (5), `confirm_for` is set and a debounced
press-edge fires; on that frame it equals the pending `confirm_for`
action. -/
theorem spec_C1 (N : Int) (st : UiState) (step : Int) (rawPress : Bool) (now : ℚ)
    (h : (handle N st step rawPress now).reset ≠ none) :
    st.screen = 5 ∧ pressedEdge st rawPress now = true ∧ st.confirm_for ≠ none ∧
      (handle N st step rawPress now).reset = st.confirm_for := by
  rcases hr : handle N st step rawPress now with ⟨stf, oh, op, r, sv⟩
  rw [hr] at h
  dsimp only at h ⊢
  unfold handle at hr
  dsimp only at hr
  split at hr
  · injection hr with h1 h2 h3 h4 h5
    exact absurd h4.symm h
  · split at hr
    · unfold frameMain at hr
      dsimp only at hr
      injection hr with h1 h2 h3 h4 h5
      rw [← h4] at h
      obtain ⟨hscr, hpe, hcf⟩ := applyScreen_reset N _ step _ now h
      dsimp only at hscr hcf
      rw [btnFrameUpdate_screen] at hscr
      nth_rewrite 2 [btnFrameUpdate_confirm_for] at hcf
      exact ⟨hscr, hpe, hcf ▸ h, h4 ▸ hcf⟩
    · split at hr
      · injection hr with h1 h2 h3 h4 h5
        exact absurd h4.symm h
      · unfold frameMain at hr
        dsimp only at hr
        injection hr with h1 h2 h3 h4 h5
        rw [← h4] at h
        obtain ⟨hscr, hpe, hcf⟩ := applyScreen_reset N _ step _ now h
        rw [btnFrameUpdate_screen] at hscr
        rw [btnFrameUpdate_confirm_for] at hcf
        exact ⟨hscr, hpe, hcf ▸ h, h4 ▸ hcf⟩

/-- Witness for C1: a confirming press on the Confirm screen does emit
the pending action. -/
theorem spec_C1_witness :
    (handle 7 stConfirm 0 true 10).reset ≠ none ∧
      (stConfirm.screen = 5 ∧ pressedEdge stConfirm true 10 = true ∧
        stConfirm.confirm_for ≠ none ∧
        (handle 7 stConfirm 0 true 10).reset = stConfirm.confirm_for) :=
  ⟨by with_unfolding_all decide, spec_C1 7 stConfirm 0 true 10 (by with_unfolding_all decide)⟩

/-- C4: `steps()` returns the accumulated detents and zeroes the counter,
`pressed()` returns the latch and clears it: with nothing new in between,
consecutive calls return `(n, 0)` and `(b, false)`. -/
theorem spec_C4 (st : EncState) :
    (stepsCall st).1 = (if st.ok then st.steps else 0) ∧
      (stepsCall (stepsCall st).2).1 = 0 ∧
      (pressedCall st).1 = (st.ok && st.press_latch) ∧
      (pressedCall (pressedCall st).2).1 = false := by
  rcases hok : st.ok with _ | _
  · simp [stepsCall, pressedCall, hok]
  · rcases hp : st.press_latch with _ | _ <;>
      simp [stepsCall, pressedCall, hok, hp]

/-- C8: a frame that arrives while the display sleeps only wakes it:
hue, brightness, screen, selection, `confirm_for` and language are left
unchanged, the frame's reset action is the no-op, and on any step or
press activity the display is awake afterwards. -/
theorem spec_C8 (N : Int) (st : UiState) (step : Int) (rawPress : Bool) (now : ℚ)
    (hs : st.oled_sleeping = true) :
    ((handle N st step rawPress now).state.hue = st.hue ∧
      (handle N st step rawPress now).state.user_pct = st.user_pct ∧
      (handle N st step rawPress now).state.screen = st.screen ∧
      (handle N st step rawPress now).state.selection = st.selection ∧
      (handle N st step rawPress now).state.confirm_for = st.confirm_for ∧
      (handle N st step rawPress now).state.lang_idx = st.lang_idx ∧
      (handle N st step rawPress now).reset = none) ∧
      ((step ≠ 0 ∨ pressedEdge st rawPress now = true) →
        (handle N st step rawPress now).state.oled_sleeping = false) := by
  have hb := btnFrameUpdate_oled_sleeping st rawPress now
  unfold handle
  dsimp only
  rw [hb, hs]
  simp only [if_pos rfl]
  constructor
  · refine ⟨?_, ?_, ?_, ?_, ?_, ?_, rfl⟩ <;>
      simp [checkAutoSave_hue, checkAutoSave_user_pct, checkAutoSave_screen,
        checkAutoSave_selection, checkAutoSave_confirm_for, checkAutoSave_lang_idx] <;>
      split <;>
      simp [btnFrameUpdate_hue, btnFrameUpdate_user_pct, btnFrameUpdate_screen,
        btnFrameUpdate_selection, btnFrameUpdate_confirm_for, btnFrameUpdate_lang_idx]
  · intro ha
    have hact : (decide (step ≠ 0) || pressedEdge st rawPress now) = true := by
      rcases ha with ha | ha
      · simp [ha]
      · simp [ha]
    rw [if_pos hact]
    simp [checkAutoSave_oled_sleeping]

/-- Witness for C8: a step while sleeping wakes the display and changes
nothing else. -/
theorem spec_C8_witness :
    stSleeping.oled_sleeping = true ∧
      (((handle 7 stSleeping 1 false 1).state.hue = stSleeping.hue ∧
        (handle 7 stSleeping 1 false 1).state.user_pct = stSleeping.user_pct ∧
        (handle 7 stSleeping 1 false 1).state.screen = stSleeping.screen ∧
        (handle 7 stSleeping 1 false 1).state.selection = stSleeping.selection ∧
        (handle 7 stSleeping 1 false 1).state.confirm_for = stSleeping.confirm_for ∧
        (handle 7 stSleeping 1 false 1).state.lang_idx = stSleeping.lang_idx ∧
        (handle 7 stSleeping 1 false 1).reset = none) ∧
        (((1:Int) ≠ 0 ∨ pressedEdge stSleeping false 1 = true) →
          (handle 7 stSleeping 1 false 1).state.oled_sleeping = false)) :=
  ⟨rfl, spec_C8 7 stSleeping 1 false 1 rfl⟩

/-- C3 counterexample: on the Confirm screen a nonzero step arriving
within 0.2 s of the last screen change does NOT return to Info — the
screen-change gate silently drops it, contradicting the claim as
stated. -/
theorem spec_C3_counterexample :
    stConfirm.screen = 5 ∧ stConfirm.oled_sleeping = false ∧
      (handle 7 stConfirm 1 false (1/10)).state.screen = 5 ∧
      (handle 7 stConfirm 1 false (1/10)).state.confirm_for = some Act.wifi ∧
      (handle 7 stConfirm 1 false (1/10)).reset = none := by
  with_unfolding_all decide

/-- C3 (amended): on the Confirm screen, while awake and with at least
`screen_change_delay` elapsed since the last screen change, a nonzero
step cancels back to Info with `confirm_for` cleared and no reset
action, and a debounced press-edge on a step-free frame resets to Info,
clears `confirm_for` and returns it as the frame's reset action. -/
theorem spec_C3 (N : Int) (st : UiState) (step : Int) (rawPress : Bool) (now : ℚ)
    (h5 : st.screen = 5) (hw : st.oled_sleeping = false)
    (hcan : now - st.last_screen_change > screenChangeDelay) :
    (step ≠ 0 →
      (handle N st step rawPress now).state.screen = 0 ∧
        (handle N st step rawPress now).state.confirm_for = none ∧
        (handle N st step rawPress now).reset = none) ∧
      (step = 0 → pressedEdge st rawPress now = true →
        (handle N st step rawPress now).state.screen = 0 ∧
          (handle N st step rawPress now).state.confirm_for = none ∧
          (handle N st step rawPress now).reset = st.confirm_for) := by
  constructor
  · intro hstep
    have hact : (decide (step ≠ 0) || pressedEdge st rawPress now) = true := by
      simp [hstep]
    rw [handle_awake_act N st step rawPress now hw hact]
    unfold frameMain
    dsimp only
    have h5' : ({ btnFrameUpdate st rawPress now with last_activity := now } : UiState).screen = 5 := by
      dsimp only
      rw [btnFrameUpdate_screen]
      exact h5
    have hcan' : now - ({ btnFrameUpdate st rawPress now with last_activity := now } : UiState).last_screen_change > screenChangeDelay := by
      dsimp only
      rw [btnFrameUpdate_last_screen_change]
      exact hcan
    rw [applyScreen_five_step N _ step _ now h5' hstep hcan']
    dsimp only
    refine ⟨?_, ?_, rfl⟩
    · rw [checkAutoSave_screen]
    · rw [checkAutoSave_confirm_for]
  · intro hstep hpe
    have hact : (decide (step ≠ 0) || pressedEdge st rawPress now) = true := by
      simp [hpe]
    rw [handle_awake_act N st step rawPress now hw hact]
    unfold frameMain
    dsimp only
    have h5' : ({ btnFrameUpdate st rawPress now with last_activity := now } : UiState).screen = 5 := by
      dsimp only
      rw [btnFrameUpdate_screen]
      exact h5
    have hcan' : now - ({ btnFrameUpdate st rawPress now with last_activity := now } : UiState).last_screen_change > screenChangeDelay := by
      dsimp only
      rw [btnFrameUpdate_last_screen_change]
      exact hcan
    rw [applyScreen_five_press N _ step _ now h5' hstep hpe hcan']
    dsimp only
    refine ⟨?_, ?_, ?_⟩
    · rw [checkAutoSave_screen]
    · rw [checkAutoSave_confirm_for]
    · rw [btnFrameUpdate_confirm_for]

/-- Witness for C3: with the gate open, step cancels and press confirms. -/
theorem spec_C3_witness :
    (stConfirm.screen = 5 ∧ stConfirm.oled_sleeping = false ∧
      (10:ℚ) - stConfirm.last_screen_change > screenChangeDelay) ∧
      (((1:Int) ≠ 0 →
        (handle 7 stConfirm 1 false 10).state.screen = 0 ∧
          (handle 7 stConfirm 1 false 10).state.confirm_for = none ∧
          (handle 7 stConfirm 1 false 10).reset = none) ∧
        ((1:Int) = 0 → pressedEdge stConfirm false 10 = true →
          (handle 7 stConfirm 1 false 10).state.screen = 0 ∧
            (handle 7 stConfirm 1 false 10).state.confirm_for = none ∧
            (handle 7 stConfirm 1 false 10).reset = stConfirm.confirm_for)) :=
  ⟨⟨rfl, by with_unfolding_all decide, by with_unfolding_all decide⟩,
    spec_C3 7 stConfirm 1 false 10 rfl (by with_unfolding_all decide)
      (by with_unfolding_all decide)⟩

/-- C7: the dirty timestamp is set only on the first change of a dirty
run (never reset while already dirty), so two hue changes within
`save_delay` of each other yield exactly one save, firing once
`save_delay` has elapsed since the first change. -/
theorem spec_C7 (st0 : UiState) (h1 h2 t1 t2 t3 : ℚ)
    (hclean : st0.settings_dirty = false)
    (hhue : |h1 - st0.last_saved_hue| > hueSaveEps)
    (ht2 : t2 - t1 < SETTINGS_SAVE_DELAY)
    (ht3 : t3 - t1 ≥ SETTINGS_SAVE_DELAY) :
    (∀ (st : UiState) (now : ℚ), st.settings_dirty = true →
      (checkAutoSave st now).1.last_setting_change = st.last_setting_change) ∧
      (checkAutoSave { st0 with hue := h1 } t1).2 = false ∧
      (checkAutoSave { st0 with hue := h1 } t1).1.settings_dirty = true ∧
      (checkAutoSave { st0 with hue := h1 } t1).1.last_setting_change = t1 ∧
      (checkAutoSave { (checkAutoSave { st0 with hue := h1 } t1).1 with hue := h2 } t2).2
          = false ∧
      (checkAutoSave { (checkAutoSave { st0 with hue := h1 } t1).1 with hue := h2 } t2).1.last_setting_change
          = t1 ∧
      (checkAutoSave
        (checkAutoSave { (checkAutoSave { st0 with hue := h1 } t1).1 with hue := h2 } t2).1
        t3).2 = true := by
  have freeze : ∀ (st : UiState) (now : ℚ), st.settings_dirty = true →
      (checkAutoSave st now).1.last_setting_change = st.last_setting_change := by
    intro st now hd
    rw [checkAutoSave_dirty st now hd]
    split <;> rfl
  have hc1 : checkAutoSave { st0 with hue := h1 } t1 =
      ({ st0 with hue := h1, settings_dirty := true, last_setting_change := t1 }, false) :=
    checkAutoSave_firstChange { st0 with hue := h1 } t1 hclean (Or.inl hhue)
  have hc2 : checkAutoSave
        { (checkAutoSave { st0 with hue := h1 } t1).1 with hue := h2 } t2 =
      ({ st0 with hue := h2, settings_dirty := true, last_setting_change := t1 }, false) := by
    rw [hc1]
    rw [checkAutoSave_dirty _ t2 rfl]
    rw [if_neg (not_le.mpr ht2)]
  have hc3 : (checkAutoSave
        (checkAutoSave { (checkAutoSave { st0 with hue := h1 } t1).1 with hue := h2 } t2).1
        t3).2 = true := by
    rw [hc2]
    rw [checkAutoSave_dirty _ t3 rfl]
    rw [if_pos ht3]
  exact ⟨freeze, by rw [hc1], by rw [hc1], by rw [hc1], by rw [hc2], by rw [hc2], hc3⟩

/-- Witness for C7: two hue edits one second apart, then a save exactly
two seconds after the first edit. -/
theorem spec_C7_witness :
    ((uiInit 0 50 0 0).settings_dirty = false ∧
      |(1:ℚ)/100 - (uiInit 0 50 0 0).last_saved_hue| > hueSaveEps ∧
      (101:ℚ) - 100 < SETTINGS_SAVE_DELAY ∧
      (102:ℚ) - 100 ≥ SETTINGS_SAVE_DELAY) ∧
      ((checkAutoSave { uiInit 0 50 0 0 with hue := 1/100 } 100).2 = false ∧
        (checkAutoSave { uiInit 0 50 0 0 with hue := 1/100 } 100).1.settings_dirty = true ∧
        (checkAutoSave { uiInit 0 50 0 0 with hue := 1/100 } 100).1.last_setting_change = 100 ∧
        (checkAutoSave { (checkAutoSave { uiInit 0 50 0 0 with hue := 1/100 } 100).1 with hue := 2/100 } 101).2 = false ∧
        (checkAutoSave { (checkAutoSave { uiInit 0 50 0 0 with hue := 1/100 } 100).1 with hue := 2/100 } 101).1.last_setting_change = 100 ∧
        (checkAutoSave
          (checkAutoSave { (checkAutoSave { uiInit 0 50 0 0 with hue := 1/100 } 100).1 with hue := 2/100 } 101).1
          102).2 = true) :=
  ⟨⟨rfl, by with_unfolding_all decide, by with_unfolding_all decide,
      by with_unfolding_all decide⟩,
    (spec_C7 (uiInit 0 50 0 0) (1/100) (2/100) 100 101 102 rfl
      (by with_unfolding_all decide) (by with_unfolding_all decide)
      (by with_unfolding_all decide)).2⟩

/-- C9: starting from initialization on any persisted values, after any
sequence of frames hue stays in `[0,1)` and brightness in `[0,100]`
(initialization wraps/clamps, the Color screen wraps modulo 1, the
Brightness screen clamps). -/
theorem spec_C9 (N : Int) (hueIn : ℚ) (pctIn langIdx0 : Int) (t0 : ℚ)
    (frames : List (Int × Bool × ℚ)) :
    goodState (runFrames N (uiInit hueIn pctIn langIdx0 t0) frames) :=
  runFrames_good N frames _
    ⟨Int.fract_nonneg _, Int.fract_lt_one _, le_max_left _ _,
      max_le (by norm_num) (min_le_left _ _)⟩

/-- C10: in every state reachable from initialization, being on the
Confirm screen implies `confirm_for` is set: Confirm is only entered
from the reset menu with an action assigned, and every exit clears both
together. -/
theorem spec_C10 (N : Int) (hueIn : ℚ) (pctIn langIdx0 : Int) (t0 : ℚ)
    (frames : List (Int × Bool × ℚ)) :
    confirmInv (runFrames N (uiInit hueIn pctIn langIdx0 t0) frames) :=
  runFrames_confirmInv N frames _ (fun habs => by simp [uiInit] at habs)

/-- C2 counterexample: four forward transitions (one drained detent at
PPR = 4) followed by one backward transition leave the table-delta sum
at 3, whose truncated quotient by 4 is 0, yet `steps()` drains 1 — the
exact-quotient law fails once the direction reverses mid-detent. -/
theorem spec_C2_counterexample :
    deltaSum (encInit 1 1 1 0).qstate quadTrace = 3 ∧
      Int.tdiv 3 4 = 0 ∧
      (stepsCall (pollLoop 4 (5/1000) true (encInit 1 1 1 0) quadTrace).1).1 = 1 := by
  with_unfolding_all decide

/-- C2 (amended): over any error-free trace with the button quietly
released, the drained detents `d` and residual accumulator `r` satisfy
`d * PPR + r = sum of table deltas` with `|r| < PPR`; the exact
truncated quotient holds whenever the residual is zero (in particular
equal-and-opposite transition sequences cancel exactly). -/
theorem spec_C2 (ppr : Int) (hp : 0 < ppr) (D : ℚ) (alow : Bool) (a b : Nat) (t0 : ℚ)
    (trace : List Sample)
    (htr : ∀ smp ∈ trace, smp.sw = relLevel alow ∧ smp.qErr = false ∧ smp.bErr = false) :
    (stepsCall (pollLoop ppr D alow (encInit a b (relLevel alow) t0) trace).1).1 * ppr +
        (pollLoop ppr D alow (encInit a b (relLevel alow) t0) trace).1.accum =
      deltaSum ((a <<< 1) ||| b) trace ∧
      |(pollLoop ppr D alow (encInit a b (relLevel alow) t0) trace).1.accum| < ppr := by
  have hinv := pollLoop_quad_inv ppr hp D alow trace (encInit a b (relLevel alow) t0)
    rfl rfl rfl (by simpa using hp) htr
  have hok : (pollLoop ppr D alow (encInit a b (relLevel alow) t0) trace).1.ok = true := by
    rw [pollLoop_ok]
    rfl
  have hdrain : (stepsCall (pollLoop ppr D alow (encInit a b (relLevel alow) t0) trace).1).1 =
      (pollLoop ppr D alow (encInit a b (relLevel alow) t0) trace).1.steps := by
    unfold stepsCall
    rw [if_pos hok]
  rw [hdrain]
  refine ⟨?_, hinv.2⟩
  rw [hinv.1]
  show _ = deltaSum (encInit a b (relLevel alow) t0).qstate trace
  simp [encInit]

/-- Witness for C2: the counterexample trace satisfies the amended
ledger law: 1·4 + (−1) = 3. -/
theorem spec_C2_witness :
    (0:Int) < 4 ∧
      ((stepsCall (pollLoop 4 (5/1000) true (encInit 1 1 (relLevel true) 0) quadTrace).1).1 * 4 +
          (pollLoop 4 (5/1000) true (encInit 1 1 (relLevel true) 0) quadTrace).1.accum =
        deltaSum ((1 <<< 1) ||| 1) quadTrace ∧
        |(pollLoop 4 (5/1000) true (encInit 1 1 (relLevel true) 0) quadTrace).1.accum| < 4) :=
  ⟨by norm_num,
    spec_C2 4 (by norm_num) (5/1000) true 1 1 0 quadTrace (by with_unfolding_all decide)⟩

/-- C5: starting from a released button, a stably held press latches on
exactly the poll that first sees the debounce window elapsed since the
press edge — once per hold no matter how many polls occur — and a hold
whose polls never span the window latches never. -/
theorem spec_C5 (ppr : Int) (D : ℚ) (alow : Bool) (st : EncState)
    (s0 : Sample) (rest : List Sample)
    (hstop : st.stopped = false) (hwait : st.waitRelease = false)
    (hrel : st.btn_last = relLevel alow)
    (htr : ∀ s ∈ s0 :: rest, s.sw = actLevel alow ∧ s.qErr = false ∧ s.bErr = false) :
    (pollLoop ppr D alow st (s0 :: rest)).2 =
        (if ∃ s ∈ rest, s.t - s0.t ≥ D then 1 else 0) ∧
      ((∃ s ∈ rest, s.t - s0.t ≥ D) → (pollLoop ppr D alow st (s0 :: rest)).2 = 1) ∧
      ((∀ s ∈ rest, s.t - s0.t < D) → (pollLoop ppr D alow st (s0 :: rest)).2 = 0) := by
  obtain ⟨hsw, hq, hb⟩ := htr s0 (List.mem_cons_self _ _)
  have hstep := pollStep_edge ppr D alow st s0 hstop hwait hrel hsw hq hb
  have hmain : (pollLoop ppr D alow st (s0 :: rest)).2 =
      if ∃ s ∈ rest, s.t - s0.t ≥ D then 1 else 0 := by
    unfold pollLoop
    dsimp only
    rw [hstep]
    dsimp only
    set stE : EncState :=
      { quadUpdate ppr st s0.a s0.b with
          btn_last := s0.sw
          btn_last_change := s0.t } with hstE
    rw [pollLoop_hold ppr D alow rest stE
      ((quadUpdate_stopped ppr st s0.a s0.b).trans hstop)
      ((quadUpdate_waitRelease ppr st s0.a s0.b).trans hwait)
      hsw
      (fun x hx => htr x (List.mem_cons_of_mem _ hx))]
    simp
  refine ⟨hmain, ?_, ?_⟩
  · intro hex
    rw [hmain, if_pos hex]
  · intro hall
    rw [hmain, if_neg (show ¬∃ s ∈ rest, s.t - s0.t ≥ D from by
      rintro ⟨x, hx, hxd⟩
      exact absurd hxd (not_le.mpr (hall x hx)))]

/-- Witness for C5: an 8 ms hold latches exactly once, a 2 ms hold not
at all (5 ms window). -/
theorem spec_C5_witness :
    (pollLoop 4 (5/1000) true (encInit 1 1 1 0) holdTrace).2 = 1 ∧
      (pollLoop 4 (5/1000) true (encInit 1 1 1 0) shortTrace).2 = 0 :=
  ⟨(spec_C5 4 (5/1000) true (encInit 1 1 1 0) ⟨1, 1, 0, 0, false, false⟩
      [⟨1, 1, 0, 1/1000, false, false⟩, ⟨1, 1, 0, 2/1000, false, false⟩,
        ⟨1, 1, 0, 6/1000, false, false⟩, ⟨1, 1, 0, 8/1000, false, false⟩]
      rfl rfl rfl (by with_unfolding_all decide)).2.1 (by with_unfolding_all decide),
    (spec_C5 4 (5/1000) true (encInit 1 1 1 0) ⟨1, 1, 0, 0, false, false⟩
      [⟨1, 1, 0, 1/1000, false, false⟩, ⟨1, 1, 0, 2/1000, false, false⟩]
      rfl rfl rfl (by with_unfolding_all decide)).2.2 (by with_unfolding_all decide)⟩

/-- C6 counterexample: one detent of rotation followed by eleven
consecutive quadrature errors soft-disables the loop, but the first
`steps()` call after the disable returns the pending detent, 1 — not 0
as the claim states for every subsequent call. -/
theorem spec_C6_counterexample :
    (pollLoop 4 (5/1000) true (encInit 1 1 1 0) disableTrace).1.stopped = true ∧
      (stepsCall (pollLoop 4 (5/1000) true (encInit 1 1 1 0) disableTrace).1).1 = 1 := by
  with_unfolding_all decide

/-- C6 (amended): more than `max_errors` consecutive read errors stop
the sampler loop; once stopped the loop never changes state or latches
again, so `steps()`/`pressed()` deliver the events pending at disable
time once, and every later call returns 0/false forever. -/
theorem spec_C6 (ppr : Int) (D : ℚ) (alow : Bool) (st : EncState) (smp : Sample)
    (ts : List Sample) (hstop : st.stopped = true) :
    (pollStep ppr D alow st smp = (st, false) ∧
      pollLoop ppr D alow st ts = (st, 0) ∧
      (stepsCall (stepsCall st).2).1 = 0 ∧
      (pressedCall (pressedCall st).2).1 = false) ∧
      (∀ (st' : EncState) (err : List Sample), st'.stopped = false →
        st'.waitRelease = false → st'.btn_last = relLevel alow →
        st'.errors ≤ MAX_ERRORS → MAX_ERRORS < st'.errors + err.length →
        (∀ s ∈ err, s.qErr = true ∧ s.bErr = false ∧ s.sw = relLevel alow) →
        (pollLoop ppr D alow st' err).1.stopped = true) := by
  refine ⟨⟨pollStep_stopped ppr D alow st smp hstop,
    pollLoop_stopped ppr D alow ts st hstop, ?_, ?_⟩, ?_⟩
  · unfold stepsCall
    split_ifs <;> rfl
  · unfold pressedCall
    split_ifs <;> first | rfl | trivial
  · intro st' err
    induction err generalizing st' with
    | nil =>
      intro h1 _ _ h4 h5 _
      exfalso
      simp only [List.length_nil, Nat.add_zero] at h5
      omega
    | cons s rest ih =>
      intro h1 h2 h3 h4 h5 h6
      obtain ⟨hq, hb, hsw⟩ := h6 s (List.mem_cons_self _ _)
      by_cases hmax : MAX_ERRORS < st'.errors + 1
      · have hstep : pollStep ppr D alow st' s = (bumpErr st', false) := by
          unfold pollStep
          simp only [h1, h2, hq, Bool.false_eq_true, if_false, if_true]
          rw [if_pos (show (bumpErr st').stopped = true from by
            simp [bumpErr, decide_eq_true hmax])]
        unfold pollLoop
        dsimp only
        rw [hstep]
        dsimp only
        rw [pollLoop_stopped ppr D alow rest (bumpErr st') (by
          simp [bumpErr, decide_eq_true hmax])]
        simp [bumpErr, decide_eq_true hmax]
      · have hbump : (bumpErr st').stopped = false := by
          simp [bumpErr, decide_eq_false hmax]
        have hstep : pollStep ppr D alow st' s = (bumpErr st', false) := by
          unfold pollStep
          simp only [h1, h2, hq, Bool.false_eq_true, if_false, if_true]
          rw [if_neg (by rw [hbump]; exact Bool.false_ne_true)]
          rw [if_neg (by rw [hb]; exact Bool.false_ne_true)]
          rw [hsw]
          exact btnUpdate_quiet D alow (bumpErr st') s.t h3
        unfold pollLoop
        dsimp only
        rw [hstep]
        dsimp only
        exact ih (bumpErr st') hbump h2 h3
          (by simp only [bumpErr]; omega)
          (by simp only [bumpErr, List.length_cons] at h5 ⊢; omega)
          (fun x hx => h6 x (List.mem_cons_of_mem _ hx))

/-- Witness for C6: after soft-disable, the second `steps()` and
`pressed()` calls return 0 and false. -/
theorem spec_C6_witness :
    stStopped.stopped = true ∧
      (stepsCall (stepsCall stStopped).2).1 = 0 ∧
      (pressedCall (pressedCall stStopped).2).1 = false :=
  ⟨rfl, (spec_C6 4 (5/1000) true stStopped ⟨1, 1, 1, 0, false, false⟩ [] rfl).1.2.2⟩

end OTPi
